import Mathlib

/-!
Verification of the GcodeOracle toolpath interpreter and renderer
(`src/GcodeOracle/GcodeManager.py`, `src/GcodeOracle/Renderer.py`).

Numbers: Python floats are modelled exactly. Parsed command parameters are
rational (`Option ℚ`, every decimal literal is rational); nozzle coordinates
and all geometry are real (`ℝ`), giving the exact-arithmetic idealisation of
the source's floating point except where a NaN is load-bearing, in which case
the NaN is modelled explicitly (see `npSqrt`).

Fallible operations are modelled with `Option`: `parseFloat` returns `none`
where Python `float()` raises (the exception is caught per parameter in
`GcodeCommand.__init__`), `parseCommand` returns `none` where
`command_string.split()[0]` raises `IndexError`, and that failure propagates
through `runLines`/`interpret` exactly as the uncaught exception does in
`parse_gcode`.
-/

namespace GcodeOracle

/-- A 3-component vector, used for nozzle positions, segment endpoints,
mesh vertices and normals. -/
abbrev Vec3 := ℝ × ℝ × ℝ

/-- A toolpath segment: `(start, end)` endpoint pair, as built by
`Segment(seg_start, seg_end)` in `GcodeManager.py`. -/
abbrev Segment := Vec3 × Vec3

/-- One parsed G-code line (`GcodeCommand` in `GcodeManager.py`): the leading
token and the nine optional numeric parameters, `none` when absent. -/
structure GcodeCommand where
  type : String
  X : Option ℚ
  Y : Option ℚ
  Z : Option ℚ
  E : Option ℚ
  F : Option ℚ
  I : Option ℚ
  J : Option ℚ
  K : Option ℚ
  R : Option ℚ
deriving DecidableEq

/-- The interpreter state of `GcodeManager`: nozzle coordinates, the
absolute/relative mode flag, and the accumulated segment list. -/
structure Machine where
  nozzle_x : ℝ
  nozzle_y : ℝ
  nozzle_z : ℝ
  absolute_movement : Bool
  segments : List Segment

/-! ### Numeric parameter parsing (`float(param[1:])`) -/

/-- Decimal value of a digit list (most significant first). -/
def digitsVal (cs : List Char) : ℕ :=
  cs.foldl (fun a c => a * 10 + (c.toNat - 48)) 0

/-- Parse a nonempty all-digit character list as a natural number. -/
def parseNatQ (cs : List Char) : Option ℕ :=
  if cs ≠ [] ∧ cs.all Char.isDigit then some (digitsVal cs) else none

/-- Parse the mantissa of a float literal: digits with at most one decimal
point and at least one digit overall, as accepted by Python `float()`. -/
def parseMantissaQ (cs : List Char) : Option ℚ :=
  match cs.splitOn '.' with
  | [w] => (parseNatQ w).map fun n => (n : ℚ)
  | [w, f] =>
      if (w ≠ [] ∨ f ≠ []) ∧ w.all Char.isDigit ∧ f.all Char.isDigit then
        some ((digitsVal w : ℚ) + (digitsVal f : ℚ) / (10 : ℚ) ^ f.length)
      else none
  | _ => none

/-- Split a character list at the first exponent marker `e`/`E`. -/
def splitAtExp : List Char → List Char × Option (List Char)
  | [] => ([], none)
  | c :: r =>
      if c = 'e' ∨ c = 'E' then ([], some r)
      else
        let p := splitAtExp r
        (c :: p.1, p.2)

/-- Parse a float-literal exponent: optional sign, then nonempty digits. -/
def parseExpQ (cs : List Char) : Option ℤ :=
  match cs with
  | '+' :: r => (parseNatQ r).map fun n => (n : ℤ)
  | '-' :: r => (parseNatQ r).map fun n => -(n : ℤ)
  | r => (parseNatQ r).map fun n => (n : ℤ)

/-- Python `float(s)` on the decimal-literal grammar
(`[+-]? (digits [. digits?] | . digits) ([eE] [+-]? digits)?`), returning
`none` where `float()` raises `ValueError`.  `inf`/`nan` spellings,
underscores and surrounding whitespace are not modelled; parameter tokens
produced by `str.split()` never carry whitespace. -/
def parseFloat (cs : List Char) : Option ℚ :=
  let sb : ℚ × List Char :=
    match cs with
    | '+' :: r => (1, r)
    | '-' :: r => (-1, r)
    | r => (1, r)
  let me := splitAtExp sb.2
  match parseMantissaQ me.1, me.2 with
  | some m, none => some (sb.1 * m)
  | some m, some e => (parseExpQ e).map fun k => sb.1 * m * (10 : ℚ) ^ k
  | none, _ => none

/-! ### Command-line parsing (`GcodeCommand.__init__`) -/

/-- Helper for `tokens`: accumulate the current word (reversed) while
scanning the remaining characters, emitting a word at each whitespace run. -/
def wordsAux (acc : List Char) : List Char → List (List Char)
  | [] => if acc = [] then [] else [acc.reverse]
  | c :: r =>
      if c.isWhitespace then
        (if acc = [] then wordsAux [] r else acc.reverse :: wordsAux [] r)
      else wordsAux (c :: acc) r

/-- Whitespace tokenization, Python `command_string.split()`: the maximal
whitespace-free runs, in order; no empty tokens. -/
def tokens (s : String) : List (List Char) :=
  wordsAux [] s.toList

/-- A `GcodeCommand` with only the type token set, all parameters absent:
the state of `__init__` just after `self.type = split[0]`. -/
def initFields (t : String) : GcodeCommand :=
  ⟨t, none, none, none, none, none, none, none, none, none⟩

/-- One field assignment
`self.X = float(param[1:]) if len(param) > 1 else None`, given the token's
tail after the leading letter: when the tail fails to parse, `float` raises,
the exception is caught and the field keeps its previous value; a bare
letter token assigns `None`. -/
def setField (rest : List Char) (old : Option ℚ) : Option ℚ :=
  if rest = [] then none
  else
    match parseFloat rest with
    | some v => some v
    | none => old

/-- One iteration of the parameter loop body after comment stripping:
dispatch on the leading letter (`param.startswith('X')` and so on) and
assign the matching field; any other token is ignored. -/
def applyParam (c : GcodeCommand) : List Char → GcodeCommand
  | [] => c
  | ch :: rest =>
      if ch = 'X' then { c with X := setField rest c.X }
      else if ch = 'Y' then { c with Y := setField rest c.Y }
      else if ch = 'Z' then { c with Z := setField rest c.Z }
      else if ch = 'E' then { c with E := setField rest c.E }
      else if ch = 'F' then { c with F := setField rest c.F }
      else if ch = 'I' then { c with I := setField rest c.I }
      else if ch = 'J' then { c with J := setField rest c.J }
      else if ch = 'K' then { c with K := setField rest c.K }
      else if ch = 'R' then { c with R := setField rest c.R }
      else c

/-- The parameter loop of `GcodeCommand.__init__`: a token starting with `;`
breaks out of the loop; a token containing `;` is truncated at its first `;`
(`param.split(';')[0]`, the characters before the first `;`); each remaining
token is applied in order. -/
def applyParams (c : GcodeCommand) : List (List Char) → GcodeCommand
  | [] => c
  | p :: rest =>
      if p.head? = some ';' then c
      else applyParams (applyParam c (p.takeWhile fun ch => ch ≠ ';')) rest

/-- `GcodeCommand(command_string)`.  `none` models the uncaught `IndexError`
raised by `split[0]` when `command_string.split()` is empty, which happens
exactly on whitespace-only lines (empty lines never reach the constructor). -/
def parseCommand (line : String) : Option GcodeCommand :=
  match tokens line with
  | [] => none
  | t :: params => some (applyParams (initFields (String.mk t)) params)

/-! ### Linear moves (`update_position`) -/

/-- Truthiness of an optional float, Python `if command.X:`: false for an
absent field and also for a present field whose value is exactly `0`. -/
def truthy : Option ℚ → Bool
  | none => false
  | some v => v ≠ 0

/-- Positivity of the `E` field, Python
`command.E is not None and command.E > 0`. -/
def posE : Option ℚ → Bool
  | none => false
  | some v => 0 < v

/-- Presence of at least one axis field, Python
`command.X is not None or command.Y is not None or command.Z is not None`. -/
def hasAxis (c : GcodeCommand) : Bool :=
  c.X.isSome || c.Y.isSome || c.Z.isSome

/-- One axis of the position update in `update_position`: the field is
consulted only when truthy (the `if command.X:` guard); in absolute mode the
truthy value replaces the coordinate, in relative mode it is added. -/
noncomputable def moveAxis (absolute : Bool) (cur : ℝ) (field : Option ℚ) : ℝ :=
  match field with
  | some v => if v ≠ 0 then (if absolute then (v : ℝ) else cur + (v : ℝ)) else cur
  | none => cur

/-- The machine with all three axes updated per `update_position`
(segments and mode untouched). -/
noncomputable def movedMachine (m : Machine) (c : GcodeCommand) : Machine :=
  { m with
    nozzle_x := moveAxis m.absolute_movement m.nozzle_x c.X
    nozzle_y := moveAxis m.absolute_movement m.nozzle_y c.Y
    nozzle_z := moveAxis m.absolute_movement m.nozzle_z c.Z }

/-- The nozzle position of a machine as a `Vec3`. -/
noncomputable def nozzle (m : Machine) : Vec3 :=
  (m.nozzle_x, m.nozzle_y, m.nozzle_z)

/-- `GcodeManager.update_position(command)`: update the three coordinates,
then return the `(old, new)` endpoint pair when the move is a renderable
extrusion — new position componentwise non-negative, `E` present and
positive, and at least one axis field present — and `(None, None)`
(here `none`) otherwise.  The updated machine is returned in either case. -/
noncomputable def update_position (m : Machine) (c : GcodeCommand) :
    Machine × Option Segment :=
  let m2 := movedMachine m c
  if m2.nozzle_x < 0 ∨ m2.nozzle_y < 0 ∨ m2.nozzle_z < 0 then (m2, none)
  else if posE c.E && hasAxis c then (m2, some (nozzle m, nozzle m2))
  else (m2, none)

/-! ### Arc moves (`process_arc`) -/

/-- Value of an optional parameter with default `0`,
Python `command.I if command.I is not None else 0`. -/
noncomputable def qval : Option ℚ → ℝ
  | some v => (v : ℝ)
  | none => 0

/-- One axis of the arc end position: in absolute mode a present field
replaces the coordinate (`command.X if command.X is not None else nozzle`),
in relative mode the field (default `0`) is added. -/
noncomputable def arcAxis (absolute : Bool) (cur : ℝ) (field : Option ℚ) : ℝ :=
  if absolute then (match field with | some v => (v : ℝ) | none => cur)
  else cur + qval field

/-- The end position of a `G2`/`G3` arc command. -/
noncomputable def arcEndPos (m : Machine) (c : GcodeCommand) : Vec3 :=
  (arcAxis m.absolute_movement m.nozzle_x c.X,
   arcAxis m.absolute_movement m.nozzle_y c.Y,
   arcAxis m.absolute_movement m.nozzle_z c.Z)

/-- Arc center X: `center_x = self.nozzle_x + (command.I or-default 0)`. -/
noncomputable def arcCenterX (m : Machine) (c : GcodeCommand) : ℝ :=
  m.nozzle_x + qval c.I

/-- Arc center Y: `center_y = self.nozzle_y + (command.J or-default 0)`. -/
noncomputable def arcCenterY (m : Machine) (c : GcodeCommand) : ℝ :=
  m.nozzle_y + qval c.J

/-- Arc radius: planar distance from center to the start position,
`sqrt(start_vec_x**2 + start_vec_y**2)`. -/
noncomputable def arcRadius (m : Machine) (c : GcodeCommand) : ℝ :=
  Real.sqrt ((m.nozzle_x - arcCenterX m c) ^ 2 + (m.nozzle_y - arcCenterY m c) ^ 2)

/-- `math.atan2(y, x)`: the argument of the complex number `x + y i`,
in `(-π, π]`. -/
noncomputable def atan2 (y x : ℝ) : ℝ :=
  Complex.arg ⟨x, y⟩

/-- `start_angle = math.atan2(start_vec_y, start_vec_x)`. -/
noncomputable def arcStartAngle (m : Machine) (c : GcodeCommand) : ℝ :=
  atan2 (m.nozzle_y - arcCenterY m c) (m.nozzle_x - arcCenterX m c)

/-- `end_angle = math.atan2(end_vec_y, end_vec_x)`. -/
noncomputable def arcEndAngle (m : Machine) (c : GcodeCommand) : ℝ :=
  atan2 ((arcEndPos m c).2.1 - arcCenterY m c) ((arcEndPos m c).1 - arcCenterX m c)

/-- The sign-corrected angular span: for a clockwise arc (`G2`) a positive
difference has one full turn subtracted, for a counter-clockwise arc (`G3`)
a negative difference has one full turn added. -/
noncomputable def arcAngleDiff (m : Machine) (c : GcodeCommand) (clockwise : Bool) : ℝ :=
  let d := arcEndAngle m c - arcStartAngle m c
  if clockwise then (if 0 < d then d - 2 * Real.pi else d)
  else (if d < 0 then d + 2 * Real.pi else d)

/-- Subdivision count `max(4, int(arc_length / 1.0))` with
`arc_length = abs(angle_diff) * radius`; `int` truncation on a non-negative
float is the floor. -/
noncomputable def arcNumSegments (m : Machine) (c : GcodeCommand) (clockwise : Bool) : ℕ :=
  max 4 ⌊|arcAngleDiff m c clockwise| * arcRadius m c⌋₊

/-- `z_step = (end_z - self.nozzle_z) / num_segments if num_segments > 0 else 0`. -/
noncomputable def arcZStep (m : Machine) (c : GcodeCommand) (clockwise : Bool) : ℝ :=
  if 0 < arcNumSegments m c clockwise then
    ((arcEndPos m c).2.2 - m.nozzle_z) / (arcNumSegments m c clockwise : ℝ)
  else 0

/-- The `i`-th point generated along the arc (`1 ≤ i ≤ num_segments`): the
exact end position for the last index, otherwise the point at parameter
`t = i / num_segments` on the circle, with Z interpolated linearly. -/
noncomputable def arcPoint (m : Machine) (c : GcodeCommand) (clockwise : Bool) (i : ℕ) : Vec3 :=
  if i = arcNumSegments m c clockwise then arcEndPos m c
  else
    (arcCenterX m c +
       arcRadius m c *
         Real.cos (arcStartAngle m c +
           arcAngleDiff m c clockwise * ((i : ℝ) / (arcNumSegments m c clockwise : ℝ))),
     arcCenterY m c +
       arcRadius m c *
         Real.sin (arcStartAngle m c +
           arcAngleDiff m c clockwise * ((i : ℝ) / (arcNumSegments m c clockwise : ℝ))),
     m.nozzle_z + arcZStep m c clockwise * (i : ℝ))

/-- The chain of points visited by the subdivision loop: the start position
followed by `arcPoint` at `i = 1, …, num_segments`. -/
noncomputable def arcPoints (m : Machine) (c : GcodeCommand) (clockwise : Bool) : List Vec3 :=
  nozzle m :: (List.range (arcNumSegments m c clockwise)).map fun k => arcPoint m c clockwise (k + 1)

/-- The sub-segments appended by the loop: consecutive pairs of `arcPoints`
(`prev`/current in the source). -/
noncomputable def arcSegments (m : Machine) (c : GcodeCommand) (clockwise : Bool) : List Segment :=
  (arcPoints m c clockwise).zip (arcPoints m c clockwise).tail

/-- A machine moved to a given nozzle position, everything else unchanged. -/
noncomputable def movedTo (m : Machine) (p : Vec3) : Machine :=
  { m with nozzle_x := p.1, nozzle_y := p.2.1, nozzle_z := p.2.2 }

/-- `GcodeManager.process_arc(command, clockwise)`: compute the end position;
if the current nozzle position has a negative coordinate, advance to the end
position and emit nothing; if the radius is below `0.001`, advance and emit
one straight segment when extruding; otherwise advance and emit the arc
subdivision when extruding.  Returns the advanced machine and the emitted
segments. -/
noncomputable def process_arc (m : Machine) (c : GcodeCommand) (clockwise : Bool) :
    Machine × List Segment :=
  let endP := arcEndPos m c
  if m.nozzle_x < 0 ∨ m.nozzle_y < 0 ∨ m.nozzle_z < 0 then (movedTo m endP, [])
  else if arcRadius m c < 0.001 then
    (movedTo m endP, if posE c.E then [(nozzle m, endP)] else [])
  else
    (movedTo m endP, if posE c.E then arcSegments m c clockwise else [])

/-! ### The line loop (`parse_gcode`) and bounds (`get_bounds`) -/

/-- Handling of a `G0`/`G1` line: run `update_position` and append the
produced segment, if any. -/
noncomputable def applyLinear (m : Machine) (c : GcodeCommand) : Machine :=
  let r := update_position m c
  match r.2 with
  | some s => { r.1 with segments := r.1.segments ++ [s] }
  | none => r.1

/-- Handling of a `G2`/`G3` line: run `process_arc` and append every
produced sub-segment in order. -/
noncomputable def applyArc (m : Machine) (c : GcodeCommand) (clockwise : Bool) : Machine :=
  let r := process_arc m c clockwise
  { r.1 with segments := r.1.segments ++ r.2 }

/-- The `match command.type` dispatch of `parse_gcode`: mode switches for
`G90`/`G91`, a no-op for `G92` and `;`, moves for `G0`/`G1`/`G2`/`G3`, and
a no-op for any other token. -/
noncomputable def dispatch (m : Machine) (c : GcodeCommand) : Machine :=
  match c.type with
  | ";" => m
  | "G90" => { m with absolute_movement := true }
  | "G91" => { m with absolute_movement := false }
  | "G92" => m
  | "G0" => applyLinear m c
  | "G1" => applyLinear m c
  | "G2" => applyArc m c true
  | "G3" => applyArc m c false
  | _ => m

/-- One iteration of the line loop: empty lines and lines starting with `;`
are skipped before construction; otherwise the line is parsed (`none`
propagates the constructor's `IndexError`) and dispatched. -/
noncomputable def processLine (m : Machine) (line : String) : Option Machine :=
  if line.length = 0 ∨ line.front = ';' then some m
  else
    match parseCommand line with
    | none => none
    | some c => some (dispatch m c)

/-- The line loop of `parse_gcode` over a list of lines; an uncaught
exception on any line aborts the whole parse. -/
noncomputable def runLines (m : Machine) : List String → Option Machine
  | [] => some m
  | l :: rest =>
      match processLine m l with
      | none => none
      | some m2 => runLines m2 rest

/-- Split a character list at every newline. -/
def splitLines : List Char → List (List Char)
  | [] => [[]]
  | c :: r =>
      if c = '\n' then [] :: splitLines r
      else
        match splitLines r with
        | [] => [[c]]
        | l :: ls => (c :: l) :: ls

/-- The line splitting of the G-code text (`gcode_content.splitlines()`,
with `\n` as the separator). -/
def linesOf (text : String) : List String :=
  (splitLines text.toList).map fun cs => String.mk cs

/-- The initial interpreter state: nozzle at the origin, absolute mode,
no segments. -/
noncomputable def initMachine : Machine :=
  ⟨0, 0, 0, true, []⟩

/-- The per-axis bounds record returned by `get_bounds`. -/
structure Bounds where
  min_x : ℝ
  max_x : ℝ
  min_y : ℝ
  max_y : ℝ
  min_z : ℝ
  max_z : ℝ

/-- Minimum of a list of reals seeded with its own head
(`min(all_x)` over a nonempty list). -/
noncomputable def listMin (l : List ℝ) : ℝ :=
  l.foldl min (l.headD 0)

/-- Maximum of a list of reals seeded with its own head
(`max(all_x)` over a nonempty list). -/
noncomputable def listMax (l : List ℝ) : ℝ :=
  l.foldl max (l.headD 0)

/-- `GcodeManager.get_bounds()`: `None` when there are no segments, otherwise
the componentwise min/max over every segment endpoint. -/
noncomputable def get_bounds (segs : List Segment) : Option Bounds :=
  match segs with
  | [] => none
  | _ :: _ =>
      let xs := segs.flatMap fun s => [s.1.1, s.2.1]
      let ys := segs.flatMap fun s => [s.1.2.1, s.2.2.1]
      let zs := segs.flatMap fun s => [s.1.2.2, s.2.2.2]
      some ⟨listMin xs, listMax xs, listMin ys, listMax ys, listMin zs, listMax zs⟩

/-- `interpret(gcodeText)`: run the line loop from the initial state and
return the segment list with its bounds; `none` models an uncaught exception
escaping `parse_gcode`. -/
noncomputable def interpret (text : String) : Option (List Segment × Option Bounds) :=
  (runLines initMachine (linesOf text)).map fun m => (m.segments, get_bounds m.segments)

/-! ### Claim C1: zero-valued axis fields -/

/-- A nozzle at `(5, 5, 0)` in absolute mode. -/
noncomputable def c1Machine : Machine :=
  ⟨5, 5, 0, true, []⟩

/-- The command `G1 X0 E1`. -/
def c1Cmd : GcodeCommand :=
  ⟨"G1", some 0, none, none, some 1, none, none, none, none, none⟩

/-- C1: evaluation of the code at the failing input.  In absolute mode with
the nozzle at `(5, 5, 0)`, the command `G1 X0 E1` leaves the X coordinate at
`5` and produces the degenerate segment `((5,5,0),(5,5,0))`: the truthiness
guard `if command.X:` treats the present field `X0` like an absent one, so a
zero-valued field never replaces its coordinate, contrary to the claim. -/
theorem c1_zero_valued_axis_field_ignored :
    (update_position c1Machine c1Cmd).1.nozzle_x = 5 ∧
    (update_position c1Machine c1Cmd).2 = some ((5, 5, 0), (5, 5, 0)) := by
  have hx : (movedMachine c1Machine c1Cmd).nozzle_x = 5 := by
    norm_num [movedMachine, moveAxis, c1Machine, c1Cmd]
  have hy : (movedMachine c1Machine c1Cmd).nozzle_y = 5 := by
    norm_num [movedMachine, moveAxis, c1Machine, c1Cmd]
  have hz : (movedMachine c1Machine c1Cmd).nozzle_z = 0 := by
    norm_num [movedMachine, moveAxis, c1Machine, c1Cmd]
  have hneg : ¬((movedMachine c1Machine c1Cmd).nozzle_x < 0 ∨
      (movedMachine c1Machine c1Cmd).nozzle_y < 0 ∨
      (movedMachine c1Machine c1Cmd).nozzle_z < 0) := by
    rw [hx, hy, hz]; norm_num
  have hflag : (posE c1Cmd.E && hasAxis c1Cmd) = true := by decide
  simp only [update_position]
  rw [if_neg hneg, if_pos hflag]
  refine ⟨hx, ?_⟩
  simp only [nozzle]
  rw [hx, hy, hz]
  simp [c1Machine]

/-! ### Claim C2: the linear-move segment rule -/

/-- C2: for every `G0`/`G1` command, `update_position` always advances the
state to the axis-updated position; when any updated coordinate is negative
no segment is produced; otherwise the segment from the old to the new
position is produced exactly when `E` is present and positive and at least
one of `X`/`Y`/`Z` is present. -/
theorem c2_linear_segment_rule (m : Machine) (c : GcodeCommand) :
    (update_position m c).1 = movedMachine m c ∧
    (((movedMachine m c).nozzle_x < 0 ∨ (movedMachine m c).nozzle_y < 0 ∨
        (movedMachine m c).nozzle_z < 0) → (update_position m c).2 = none) ∧
    (¬((movedMachine m c).nozzle_x < 0 ∨ (movedMachine m c).nozzle_y < 0 ∨
        (movedMachine m c).nozzle_z < 0) →
      ((update_position m c).2 = some (nozzle m, nozzle (movedMachine m c)) ↔
        posE c.E = true ∧ hasAxis c = true)) := by
  refine ⟨?_, ?_, ?_⟩
  · simp only [update_position]
    split
    · rfl
    · split <;> rfl
  · intro h
    simp only [update_position]
    rw [if_pos h]
  · intro h
    simp only [update_position]
    rw [if_neg h]
    by_cases hb : (posE c.E && hasAxis c) = true
    · rw [if_pos hb]
      exact ⟨fun _ => Bool.and_eq_true _ _ |>.mp hb, fun _ => rfl⟩
    · rw [if_neg hb]
      refine ⟨fun hcontra => absurd hcontra (by simp), fun hflags => absurd ?_ hb⟩
      rw [Bool.and_eq_true]
      exact hflags

/-- The command `G1 X10 Y10 E1`. -/
def c2Cmd : GcodeCommand :=
  ⟨"G1", some 10, some 10, none, some 1, none, none, none, none, none⟩

/-- C2 witness: from the origin in absolute mode, `G1 X10 Y10 E1` yields
exactly the segment `((0,0,0),(10,10,0))`. -/
theorem c2_witness :
    (update_position initMachine c2Cmd).2 = some ((0, 0, 0), (10, 10, 0)) := by
  have hx : (movedMachine initMachine c2Cmd).nozzle_x = 10 := by
    norm_num [movedMachine, moveAxis, initMachine, c2Cmd]
  have hy : (movedMachine initMachine c2Cmd).nozzle_y = 10 := by
    norm_num [movedMachine, moveAxis, initMachine, c2Cmd]
  have hz : (movedMachine initMachine c2Cmd).nozzle_z = 0 := by
    norm_num [movedMachine, moveAxis, initMachine, c2Cmd]
  have hneg : ¬((movedMachine initMachine c2Cmd).nozzle_x < 0 ∨
      (movedMachine initMachine c2Cmd).nozzle_y < 0 ∨
      (movedMachine initMachine c2Cmd).nozzle_z < 0) := by
    rw [hx, hy, hz]; norm_num
  have h := ((c2_linear_segment_rule initMachine c2Cmd).2.2 hneg).mpr
    ⟨by decide, by decide⟩
  rw [h]
  simp only [nozzle]
  rw [hx, hy, hz]
  simp [initMachine]

/-! ### Claim C6: totality of `interpret` -/

/-- C6: evaluation of the code at the failing input.  The text consisting of
one whitespace-only line aborts interpretation: the line is neither empty nor
a comment, so `GcodeCommand("   ")` is constructed, `"   ".split()` is empty,
and `split[0]` raises an uncaught `IndexError` (`none`), contrary to the
claim that parsing returns for every input string. -/
theorem c6_whitespace_line_crashes_interpret :
    interpret "   " = none := by
  have h1 : linesOf "   " = ["   "] := by decide
  have h2 : parseCommand "   " = none := by decide
  have h3 : ¬("   ".length = 0 ∨ "   ".front = ';') := by decide
  simp [interpret, h1, runLines, processLine, h2, h3]

/-! ### Structural facts about the arc subdivision -/

theorem arcNumSegments_pos (m : Machine) (c : GcodeCommand) (cw : Bool) :
    0 < arcNumSegments m c cw :=
  lt_of_lt_of_le (by norm_num) (le_max_left 4 _)

theorem arcPoints_length (m : Machine) (c : GcodeCommand) (cw : Bool) :
    (arcPoints m c cw).length = arcNumSegments m c cw + 1 := by
  simp [arcPoints]

theorem arcSegments_length (m : Machine) (c : GcodeCommand) (cw : Bool) :
    (arcSegments m c cw).length = arcNumSegments m c cw := by
  have h := arcPoints_length m c cw
  unfold arcSegments
  rw [List.length_zip, List.length_tail, h]
  omega

theorem zip_tail_getLast_snd {α : Type} (l : List α) (a : α) (h : l ≠ []) :
    (((a :: l).zip l).getLast?).map Prod.snd = l.getLast? := by
  induction l generalizing a with
  | nil => exact absurd rfl h
  | cons b t ih =>
      cases t with
      | nil => simp
      | cons d t2 =>
          have h2 := ih b (by simp)
          rw [List.zip_cons_cons] at h2 ⊢
          rw [List.zip_cons_cons]
          rw [List.getLast?_cons_cons, List.getLast?_cons_cons]
          exact h2

theorem range_map_getLast {α : Type} (f : ℕ → α) (n : ℕ) (h : 0 < n) :
    ((List.range n).map f).getLast? = some (f (n - 1)) := by
  obtain ⟨k, rfl⟩ : ∃ k, n = k + 1 := ⟨n - 1, by omega⟩
  rw [List.range_succ, List.map_append, List.map_singleton, List.getLast?_concat]
  simp

theorem arc_map_getLast (m : Machine) (c : GcodeCommand) (cw : Bool) :
    ((List.range (arcNumSegments m c cw)).map
      fun k => arcPoint m c cw (k + 1)).getLast? = some (arcEndPos m c) := by
  rw [range_map_getLast _ _ (arcNumSegments_pos m c cw)]
  have hn := arcNumSegments_pos m c cw
  rw [show arcNumSegments m c cw - 1 + 1 = arcNumSegments m c cw by omega]
  unfold arcPoint
  rw [if_pos rfl]

/-- The last segment of the arc subdivision ends exactly at the computed
end position. -/
theorem arcSegments_getLast_snd (m : Machine) (c : GcodeCommand) (cw : Bool) :
    ((arcSegments m c cw).getLast?).map Prod.snd = some (arcEndPos m c) := by
  have hM : ((List.range (arcNumSegments m c cw)).map
      fun k => arcPoint m c cw (k + 1)) ≠ [] := by
    intro hcon
    have hlen := congrArg List.length hcon
    have hn := arcNumSegments_pos m c cw
    simp at hlen
    omega
  unfold arcSegments arcPoints
  rw [List.tail_cons, zip_tail_getLast_snd _ _ hM]
  exact arc_map_getLast m c cw

/-! ### Claim C3: the arc exclusion tests the start, not the end -/

/-- The arc command `G2 X-1 I-0.5 E1`: from the origin its end position
`(-1, 0, 0)` is negative while its start is not. -/
def c3Cmd : GcodeCommand :=
  ⟨"G2", some (-1), none, none, some 1, none, some (-1/2), none, none, none⟩

theorem c3_radius : arcRadius initMachine c3Cmd = 1 / 2 := by
  have h : ((initMachine.nozzle_x - arcCenterX initMachine c3Cmd) ^ 2 +
      (initMachine.nozzle_y - arcCenterY initMachine c3Cmd) ^ 2) = (1 / 2 : ℝ) ^ 2 := by
    simp [arcCenterX, arcCenterY, qval, initMachine, c3Cmd]
    norm_num
  unfold arcRadius
  rw [h, Real.sqrt_sq (by norm_num)]

/-- C3 counterexample: from the origin, the extruding arc `G2 X-1 I-0.5 E1`
has end position `(-1, 0, 0)` with a negative coordinate, yet the code emits
a nonempty segment list — the exclusion check reads the nozzle position
before the update, not the computed end position as the claim states. -/
theorem c3_negative_end_still_emits :
    (process_arc initMachine c3Cmd true).1.nozzle_x < 0 ∧
    (process_arc initMachine c3Cmd true).2 ≠ [] := by
  have hno : ¬(initMachine.nozzle_x < 0 ∨ initMachine.nozzle_y < 0 ∨
      initMachine.nozzle_z < 0) := by norm_num [initMachine]
  have hrad : ¬(arcRadius initMachine c3Cmd < 0.001) := by
    rw [c3_radius]; norm_num
  have hend : (arcEndPos initMachine c3Cmd).1 = -1 := by
    norm_num [arcEndPos, arcAxis, initMachine, c3Cmd]
  simp only [process_arc]
  rw [if_neg hno, if_neg hrad]
  constructor
  · show (movedTo initMachine (arcEndPos initMachine c3Cmd)).nozzle_x < 0
    simp only [movedTo]
    rw [hend]
    norm_num
  · rw [if_pos (by decide : posE c3Cmd.E = true)]
    show arcSegments initMachine c3Cmd true ≠ []
    intro hnil
    have hlen := arcSegments_length initMachine c3Cmd true
    rw [hnil] at hlen
    have hpos := arcNumSegments_pos initMachine c3Cmd true
    simp at hlen
    omega

/-- C3 amended: the negative-position exclusion for arcs tests the nozzle
position before the update (the arc's start): whenever the start position
has any negative coordinate, no Segments are emitted and the nozzle state
still advances to the computed end position. -/
theorem c3_negative_start_excludes_arc (m : Machine) (c : GcodeCommand) (cw : Bool)
    (h : m.nozzle_x < 0 ∨ m.nozzle_y < 0 ∨ m.nozzle_z < 0) :
    (process_arc m c cw).2 = [] ∧ nozzle (process_arc m c cw).1 = arcEndPos m c := by
  simp only [process_arc]
  rw [if_pos h]
  exact ⟨rfl, by simp [nozzle, movedTo]⟩

/-- A nozzle at `(-1, 0, 0)`: a negative start position. -/
noncomputable def negMachine : Machine :=
  ⟨-1, 0, 0, true, []⟩

/-- C3 witness: from the negative start `(-1, 0, 0)`, the arc `G2 X-1 I-0.5 E1`
emits nothing and the state advances to the computed end position. -/
theorem c3_negative_start_witness :
    (process_arc negMachine c3Cmd true).2 = [] ∧
    nozzle (process_arc negMachine c3Cmd true).1 = arcEndPos negMachine c3Cmd :=
  c3_negative_start_excludes_arc negMachine c3Cmd true
    (Or.inl (by norm_num [negMachine]))

/-! ### Claim C10: arcs always advance the state -/

/-- C10: after any `G2`/`G3` command from a non-negative position, the nozzle
position equals the computed arc end position, and when `E` is absent or not
positive no segments are emitted (the state advances regardless of
extrusion). -/
theorem c10_arc_advances_state (m : Machine) (c : GcodeCommand) (cw : Bool)
    (hx : 0 ≤ m.nozzle_x) (hy : 0 ≤ m.nozzle_y) (hz : 0 ≤ m.nozzle_z) :
    nozzle (process_arc m c cw).1 = arcEndPos m c ∧
    (posE c.E = false → (process_arc m c cw).2 = []) := by
  simp only [process_arc]
  split
  · exact ⟨by simp [nozzle, movedTo], fun _ => rfl⟩
  · split
    · refine ⟨by simp [nozzle, movedTo], fun hpe => ?_⟩
      show (if posE c.E = true then _ else _) = _
      rw [hpe]
      simp
    · refine ⟨by simp [nozzle, movedTo], fun hpe => ?_⟩
      show (if posE c.E = true then _ else _) = _
      rw [hpe]
      simp

/-- The non-extruding arc command `G3 X3 Y4 I1`. -/
def c10Cmd : GcodeCommand :=
  ⟨"G3", some 3, some 4, none, none, none, some 1, none, none, none⟩

/-- C10 witness: from the origin, the non-extruding arc `G3 X3 Y4 I1` emits
no segments and still advances the nozzle to the computed end position. -/
theorem c10_witness :
    nozzle (process_arc initMachine c10Cmd false).1 = arcEndPos initMachine c10Cmd ∧
    (process_arc initMachine c10Cmd false).2 = [] := by
  have h := c10_arc_advances_state initMachine c10Cmd false
    (by norm_num [initMachine]) (by norm_num [initMachine]) (by norm_num [initMachine])
  exact ⟨h.1, h.2 (by decide)⟩

/-! ### Claim C4: subdivision count and exact landing -/

/-- The arc command `G2 X10 Y0 I5 J0 E1` (`Y0`/`J0` omitted: they default to
the current coordinate and offset `0` anyway). -/
def c4Cmd : GcodeCommand :=
  ⟨"G2", some 10, some 0, none, some 1, none, some 5, some 0, none, none⟩

/-- Membership in the circle of radius `5` centered at `(5, 0, 0)`, within
the plane `z = 0`. -/
def c4OnCircle (p : Vec3) : Prop :=
  (p.1 - 5) ^ 2 + p.2.1 ^ 2 = 25 ∧ p.2.2 = 0

theorem c4_end : arcEndPos initMachine c4Cmd = (10, 0, 0) := by
  norm_num [arcEndPos, arcAxis, initMachine, c4Cmd]

theorem c4_centerX : arcCenterX initMachine c4Cmd = 5 := by
  norm_num [arcCenterX, qval, initMachine, c4Cmd]

theorem c4_centerY : arcCenterY initMachine c4Cmd = 0 := by
  norm_num [arcCenterY, qval, initMachine, c4Cmd]

theorem c4_radius : arcRadius initMachine c4Cmd = 5 := by
  unfold arcRadius
  rw [c4_centerX, c4_centerY]
  rw [show (initMachine.nozzle_x - 5) ^ 2 + (initMachine.nozzle_y - 0) ^ 2 = (5 : ℝ) ^ 2 by
    norm_num [initMachine]]
  exact Real.sqrt_sq (by norm_num)

theorem complex_mk_eq_ofReal (x : ℝ) : (⟨x, 0⟩ : ℂ) = (x : ℂ) := by
  apply Complex.ext <;> simp

theorem atan2_zero_neg {x : ℝ} (hx : x < 0) : atan2 0 x = Real.pi := by
  unfold atan2
  rw [complex_mk_eq_ofReal]
  exact Complex.arg_ofReal_of_neg hx

theorem atan2_zero_nonneg {x : ℝ} (hx : 0 ≤ x) : atan2 0 x = 0 := by
  unfold atan2
  rw [complex_mk_eq_ofReal]
  exact Complex.arg_ofReal_of_nonneg hx

theorem c4_startAngle : arcStartAngle initMachine c4Cmd = Real.pi := by
  unfold arcStartAngle
  rw [c4_centerX, c4_centerY]
  rw [show initMachine.nozzle_y - 0 = 0 by norm_num [initMachine]]
  rw [show initMachine.nozzle_x - 5 = -5 by norm_num [initMachine]]
  exact atan2_zero_neg (by norm_num)

theorem c4_endAngle : arcEndAngle initMachine c4Cmd = 0 := by
  unfold arcEndAngle
  rw [c4_end, c4_centerX, c4_centerY]
  rw [show ((10 : ℝ), (0 : ℝ), (0 : ℝ)).2.1 - 0 = 0 by norm_num]
  rw [show ((10 : ℝ), (0 : ℝ), (0 : ℝ)).1 - 5 = 5 by norm_num]
  exact atan2_zero_nonneg (by norm_num)

theorem c4_diff : arcAngleDiff initMachine c4Cmd true = -Real.pi := by
  unfold arcAngleDiff
  rw [c4_endAngle, c4_startAngle]
  rw [if_pos rfl, if_neg (not_lt.mpr (by linarith [Real.pi_pos]))]
  ring

theorem c4_num : arcNumSegments initMachine c4Cmd true = 15 := by
  unfold arcNumSegments
  rw [c4_diff, c4_radius, abs_neg, abs_of_pos Real.pi_pos]
  have hfloor : ⌊Real.pi * 5⌋₊ = 15 := by
    rw [Nat.floor_eq_iff (by positivity)]
    constructor
    · push_cast
      nlinarith [Real.pi_gt_three]
    · push_cast
      nlinarith [Real.pi_lt_d2]
  rw [hfloor]
  norm_num

theorem c4_zstep : arcZStep initMachine c4Cmd true = 0 := by
  unfold arcZStep
  rw [if_pos (arcNumSegments_pos initMachine c4Cmd true), c4_end]
  norm_num [initMachine]

theorem c4_points_on_circle :
    ∀ p ∈ arcPoints initMachine c4Cmd true, c4OnCircle p := by
  intro p hp
  unfold arcPoints at hp
  rcases List.mem_cons.mp hp with hp | hp
  · rw [hp]
    norm_num [c4OnCircle, nozzle, initMachine]
  · obtain ⟨k, _, rfl⟩ := List.mem_map.mp hp
    unfold arcPoint
    by_cases hk : k + 1 = arcNumSegments initMachine c4Cmd true
    · rw [if_pos hk, c4_end]
      norm_num [c4OnCircle]
    · rw [if_neg hk, c4_centerX, c4_centerY, c4_radius, c4_zstep]
      constructor
      · have hsc := Real.sin_sq_add_cos_sq (arcStartAngle initMachine c4Cmd +
          arcAngleDiff initMachine c4Cmd true *
            ((k + 1 : ℕ) / (arcNumSegments initMachine c4Cmd true : ℝ)))
        simp only []
        nlinarith [hsc]
      · show initMachine.nozzle_z + 0 * ((k + 1 : ℕ) : ℝ) = 0
        norm_num [initMachine]

theorem c4_process_eq :
    (process_arc initMachine c4Cmd true).2 = arcSegments initMachine c4Cmd true := by
  simp only [process_arc]
  rw [if_neg (by norm_num [initMachine]), if_neg (by rw [c4_radius]; norm_num),
    if_pos (by decide : posE c4Cmd.E = true)]

/-- C4: for every extruding arc with radius at least `0.001` starting from a
non-negative position, the emitted sub-segment count is
`max(4, floor(|span| * radius))` and the last sub-segment ends exactly at the
computed end position; concretely, `G2 X10 Y0 I5 J0 E1` from the origin
yields `15` segments whose endpoints all lie on the circle of radius `5`
centered at `(5, 0, 0)` in the plane `z = 0`, the last ending exactly at
`(10, 0, 0)`. -/
theorem c4_arc_subdivision :
    (∀ (m : Machine) (c : GcodeCommand) (cw : Bool),
        0.001 ≤ arcRadius m c → posE c.E = true →
        ¬(m.nozzle_x < 0 ∨ m.nozzle_y < 0 ∨ m.nozzle_z < 0) →
        (process_arc m c cw).2.length =
            max 4 ⌊|arcAngleDiff m c cw| * arcRadius m c⌋₊ ∧
          ((process_arc m c cw).2.getLast?).map Prod.snd = some (arcEndPos m c)) ∧
    (process_arc initMachine c4Cmd true).2.length = 15 ∧
    (∀ s ∈ (process_arc initMachine c4Cmd true).2, c4OnCircle s.1 ∧ c4OnCircle s.2) ∧
    ((process_arc initMachine c4Cmd true).2.getLast?).map Prod.snd =
      some ((10 : ℝ), (0 : ℝ), (0 : ℝ)) := by
  have hgen : ∀ (m : Machine) (c : GcodeCommand) (cw : Bool),
      0.001 ≤ arcRadius m c → posE c.E = true →
      ¬(m.nozzle_x < 0 ∨ m.nozzle_y < 0 ∨ m.nozzle_z < 0) →
      (process_arc m c cw).2.length =
          max 4 ⌊|arcAngleDiff m c cw| * arcRadius m c⌋₊ ∧
        ((process_arc m c cw).2.getLast?).map Prod.snd = some (arcEndPos m c) := by
    intro m c cw hr hpe hneg
    have hpeq : (process_arc m c cw).2 = arcSegments m c cw := by
      simp only [process_arc]
      rw [if_neg hneg, if_neg (not_lt.mpr hr), if_pos hpe]
    rw [hpeq]
    exact ⟨arcSegments_length m c cw, arcSegments_getLast_snd m c cw⟩
  refine ⟨hgen, ?_, ?_, ?_⟩
  · rw [c4_process_eq, arcSegments_length, c4_num]
  · intro s hs
    rw [c4_process_eq] at hs
    unfold arcSegments at hs
    obtain ⟨h1, h2⟩ := List.of_mem_zip hs
    exact ⟨c4_points_on_circle s.1 h1,
      c4_points_on_circle s.2 (List.mem_of_mem_tail h2)⟩
  · rw [c4_process_eq, arcSegments_getLast_snd, c4_end]

/-- C4 witness: the general subdivision-count statement applied at the
concrete arc `G2 X10 Y0 I5 J0 E1` from the origin, whose radius `5` satisfies
the `0.001` threshold. -/
theorem c4_subdivision_witness :
    0.001 ≤ arcRadius initMachine c4Cmd ∧
    (process_arc initMachine c4Cmd true).2.length =
      max 4 ⌊|arcAngleDiff initMachine c4Cmd true| * arcRadius initMachine c4Cmd⌋₊ := by
  have hr : (0.001 : ℝ) ≤ arcRadius initMachine c4Cmd := by
    rw [c4_radius]; norm_num
  exact ⟨hr, (c4_arc_subdivision.1 initMachine c4Cmd true hr (by decide)
    (by norm_num [initMachine])).1⟩

/-! ### The tube mesh builder (`Renderer.get_segment_vertices`) -/

/-- Componentwise vector addition. -/
noncomputable def vadd (a b : Vec3) : Vec3 :=
  (a.1 + b.1, a.2.1 + b.2.1, a.2.2 + b.2.2)

/-- Componentwise vector subtraction. -/
noncomputable def vsub (a b : Vec3) : Vec3 :=
  (a.1 - b.1, a.2.1 - b.2.1, a.2.2 - b.2.2)

/-- Scalar multiplication of a vector. -/
noncomputable def smul (k : ℝ) (v : Vec3) : Vec3 :=
  (k * v.1, k * v.2.1, k * v.2.2)

/-- Vector negation (`-up`, `-right` in the source). -/
noncomputable def vneg (v : Vec3) : Vec3 :=
  (-v.1, -v.2.1, -v.2.2)

/-- The cross product (`np.cross`). -/
noncomputable def cross3 (a b : Vec3) : Vec3 :=
  (a.2.1 * b.2.2 - a.2.2 * b.2.1,
   a.2.2 * b.1 - a.1 * b.2.2,
   a.1 * b.2.1 - a.2.1 * b.1)

/-- The Euclidean norm (`np.linalg.norm`). -/
noncomputable def norm3 (v : Vec3) : ℝ :=
  Real.sqrt (v.1 ^ 2 + v.2.1 ^ 2 + v.2.2 ^ 2)

/-- The unit direction of a segment: the normalized `end - start`, with
fallback `(1, 0, 0)` for a zero-length segment. -/
noncomputable def segDirection (s e : Vec3) : Vec3 :=
  if 0 < norm3 (vsub e s) then smul (1 / norm3 (vsub e s)) (vsub e s)
  else (1, 0, 0)

/-- The global up vector `(0, 0, 1)`. -/
noncomputable def upVec : Vec3 :=
  (0, 0, 1)

/-- The "right" vector: the normalized cross product of the direction with
up, with fallback `(1, 0, 0)` when the direction is parallel to up. -/
noncomputable def rightVector (s e : Vec3) : Vec3 :=
  if 0 < norm3 (cross3 (segDirection s e) upVec) then
    smul (1 / norm3 (cross3 (segDirection s e) upVec)) (cross3 (segDirection s e) upVec)
  else (1, 0, 0)

/-- `calculate_normal(v0, v1, v2)`: the normalized cross product of the two
edge vectors, with fallback `(0, 0, 1)` when it is degenerate. -/
noncomputable def triNormal (v0 v1 v2 : Vec3) : Vec3 :=
  if 0 < norm3 (cross3 (vsub v1 v0) (vsub v2 v0)) then
    smul (1 / norm3 (cross3 (vsub v1 v0) (vsub v2 v0))) (cross3 (vsub v1 v0) (vsub v2 v0))
  else (0, 0, 1)

/-- `add_triangle`: the three vertices of one triangle, each paired with the
triangle's flat normal. -/
noncomputable def triVerts (v0 v1 v2 : Vec3) : List (Vec3 × Vec3) :=
  [(v0, triNormal v0 v1 v2), (v1, triNormal v0 v1 v2), (v2, triNormal v0 v1 v2)]

/-- `Renderer.get_segment_vertices(segment, width, height)`: the 12 triangles
(36 `(vertex, normal)` pairs) of the diamond-cross-section tube, in source
order: start cap, end cap, then the four side faces. -/
noncomputable def get_segment_vertices (seg : Segment) (width height : ℝ) :
    List (Vec3 × Vec3) :=
  let s := seg.1
  let e := seg.2
  let right := rightVector s e
  let hw := width / 2
  let hh := height / 2
  let sTop := vadd s (smul hh upVec)
  let sRight := vadd s (smul hw right)
  let sBottom := vadd s (smul hh (vneg upVec))
  let sLeft := vadd s (smul hw (vneg right))
  let eTop := vadd e (smul hh upVec)
  let eRight := vadd e (smul hw right)
  let eBottom := vadd e (smul hh (vneg upVec))
  let eLeft := vadd e (smul hw (vneg right))
  triVerts sBottom sRight sTop ++ triVerts sLeft sBottom sTop ++
  triVerts eTop eRight eBottom ++ triVerts eTop eBottom eLeft ++
  triVerts sRight eTop sTop ++ triVerts eRight eTop sRight ++
  triVerts sLeft eTop sTop ++ triVerts eLeft eTop sLeft ++
  triVerts sRight eRight sBottom ++ triVerts eBottom sBottom eRight ++
  triVerts sLeft eBottom sBottom ++ triVerts eLeft eBottom sLeft

/-- The concatenated mesh of `_prepare_geometry`: per-segment vertex data
written to the index-stable slot `[i*36, (i+1)*36)`, which in final order is
the concatenation over segments. -/
noncomputable def buildMeshData (segs : List Segment) (width height : ℝ) :
    List (Vec3 × Vec3) :=
  segs.flatMap fun s => get_segment_vertices s width height

theorem norm3_zero : norm3 ((0 : ℝ), (0 : ℝ), (0 : ℝ)) = 0 := by
  unfold norm3
  norm_num

/-! ### Claim C5: 36 tuples per segment, with total degeneracy fallbacks -/

/-- C5: every segment yields exactly 36 `(vertex, normal)` pairs, so the mesh
has `36 * segmentCount` entries; a zero-length segment falls back to
direction `(1,0,0)`, a direction parallel to up falls back to right vector
`(1,0,0)`, and a degenerate triangle cross product falls back to normal
`(0,0,1)` — every case is total. -/
theorem c5_mesh_size_and_fallbacks :
    (∀ (seg : Segment) (w h : ℝ), (get_segment_vertices seg w h).length = 36) ∧
    (∀ (segs : List Segment) (w h : ℝ),
      (buildMeshData segs w h).length = 36 * segs.length) ∧
    (∀ p : Vec3, segDirection p p = (1, 0, 0)) ∧
    (∀ (s e : Vec3) (k : ℝ), segDirection s e = (0, 0, k) →
      rightVector s e = (1, 0, 0)) ∧
    (∀ v0 v1 v2 : Vec3, cross3 (vsub v1 v0) (vsub v2 v0) = (0, 0, 0) →
      triNormal v0 v1 v2 = (0, 0, 1)) := by
  have h36 : ∀ (seg : Segment) (w h : ℝ), (get_segment_vertices seg w h).length = 36 := by
    intro seg w h
    simp [get_segment_vertices, triVerts]
  refine ⟨h36, ?_, ?_, ?_, ?_⟩
  · intro segs w h
    induction segs with
    | nil => simp [buildMeshData]
    | cons s t ih =>
        show (get_segment_vertices s w h ++ buildMeshData t w h).length = _
        rw [List.length_append, h36, ih, List.length_cons]
        ring
  · intro p
    have hv : vsub p p = ((0 : ℝ), (0 : ℝ), (0 : ℝ)) := by
      unfold vsub
      norm_num
    unfold segDirection
    rw [hv, norm3_zero, if_neg (lt_irrefl 0)]
  · intro s e k hdir
    have hc : cross3 ((0 : ℝ), (0 : ℝ), k) upVec = ((0 : ℝ), (0 : ℝ), (0 : ℝ)) := by
      unfold cross3 upVec
      norm_num
    unfold rightVector
    rw [hdir, hc, norm3_zero, if_neg (lt_irrefl 0)]
  · intro v0 v1 v2 hc
    unfold triNormal
    rw [hc, norm3_zero, if_neg (lt_irrefl 0)]

/-- C5 witness: the degeneracy fallbacks evaluated at concrete inputs — a
vertical segment gets right vector `(1,0,0)` and a collinear triangle gets
normal `(0,0,1)`; a concrete degenerate segment still yields 36 pairs. -/
theorem c5_mesh_witness :
    (get_segment_vertices ((0, 0, 0), (0, 0, 0)) 0.3 0.3).length = 36 ∧
    rightVector (0, 0, 0) (0, 0, 1) = (1, 0, 0) ∧
    triNormal (0, 0, 0) (1, 0, 0) (2, 0, 0) = (0, 0, 1) := by
  have hd : segDirection (0, 0, 0) (0, 0, 1) = ((0 : ℝ), (0 : ℝ), (1 : ℝ)) := by
    have hv : vsub ((0 : ℝ), (0 : ℝ), (1 : ℝ)) ((0 : ℝ), (0 : ℝ), (0 : ℝ)) =
        ((0 : ℝ), (0 : ℝ), (1 : ℝ)) := by
      unfold vsub
      norm_num
    have hn : norm3 ((0 : ℝ), (0 : ℝ), (1 : ℝ)) = 1 := by
      unfold norm3
      norm_num
    unfold segDirection
    rw [hv, hn, if_pos (by norm_num)]
    unfold smul
    norm_num
  have hcross : cross3 (vsub ((1 : ℝ), (0 : ℝ), (0 : ℝ)) ((0 : ℝ), (0 : ℝ), (0 : ℝ)))
      (vsub ((2 : ℝ), (0 : ℝ), (0 : ℝ)) ((0 : ℝ), (0 : ℝ), (0 : ℝ))) =
      ((0 : ℝ), (0 : ℝ), (0 : ℝ)) := by
    unfold cross3 vsub
    norm_num
  exact ⟨c5_mesh_size_and_fallbacks.1 _ _ _,
    c5_mesh_size_and_fallbacks.2.2.2.1 _ _ 1 hd,
    c5_mesh_size_and_fallbacks.2.2.2.2 _ _ _ hcross⟩

/-! ### The camera planner (`Renderer.get_camera_position`)

`np.sqrt` of a negative number is NaN, and every comparison with NaN is
false; NaN is modelled as `none` and propagates through the affected
camera coordinates. -/

/-- The eight compass views. -/
inductive View
  | north
  | east
  | south
  | west
  | north_west
  | north_east
  | south_east
  | south_west

/-- `sqrt2_inv = 1.0 / np.sqrt(2.0)`. -/
noncomputable def sqrt2Inv : ℝ :=
  1 / Real.sqrt 2

/-- The horizontal unit direction of each view, as in the source's
`match desired_view` table. -/
noncomputable def viewDirection : View → ℝ × ℝ
  | View.north => (0, 1)
  | View.east => (-1, 0)
  | View.south => (0, -1)
  | View.west => (1, 0)
  | View.north_west => (sqrt2Inv, sqrt2Inv)
  | View.north_east => (-sqrt2Inv, sqrt2Inv)
  | View.south_east => (-sqrt2Inv, -sqrt2Inv)
  | View.south_west => (sqrt2Inv, -sqrt2Inv)

/-- The X center of the bounds. -/
noncomputable def centerX (b : Bounds) : ℝ :=
  (b.min_x + b.max_x) / 2

/-- The Y center of the bounds. -/
noncomputable def centerY (b : Bounds) : ℝ :=
  (b.min_y + b.max_y) / 2

/-- The Z center of the bounds. -/
noncomputable def centerZ (b : Bounds) : ℝ :=
  (b.min_z + b.max_z) / 2

/-- `model_depth = max_z - min_z`. -/
noncomputable def modelDepth (b : Bounds) : ℝ :=
  b.max_z - b.min_z

/-- `model_diagonal = sqrt(width**2 + height**2 + depth**2)`. -/
noncomputable def modelDiagonal (b : Bounds) : ℝ :=
  Real.sqrt ((b.max_x - b.min_x) ^ 2 + (b.max_y - b.min_y) ^ 2 + (b.max_z - b.min_z) ^ 2)

/-- `camera_distance = model_diagonal * 1.5`. -/
noncomputable def cameraDistance (b : Bounds) : ℝ :=
  modelDiagonal b * 1.5

/-- `min_height_offset = max(model_diagonal * 0.5, model_depth * 1.0, 2.0)`. -/
noncomputable def minHeightOffset (b : Bounds) : ℝ :=
  max (modelDiagonal b * 0.5) (max (modelDepth b * 1.0) 2.0)

/-- `camera_height = max_z + min_height_offset`. -/
noncomputable def cameraHeight (b : Bounds) : ℝ :=
  b.max_z + minHeightOffset b

/-- `np.sqrt`: NaN (`none`) on a negative input. -/
noncomputable def npSqrt (x : ℝ) : Option ℝ :=
  if 0 ≤ x then some (Real.sqrt x) else none

/-- The horizontal camera distance:
`np.sqrt(camera_distance**2 - (camera_height - center_z)**2)` followed by
`if horizontal_distance <= 0: horizontal_distance = camera_distance`.
When the radicand is negative the square root is NaN, the `<= 0` comparison
is false, and the NaN (`none`) is kept. -/
noncomputable def horizontalDistance (b : Bounds) : Option ℝ :=
  match npSqrt (cameraDistance b ^ 2 - (cameraHeight b - centerZ b) ^ 2) with
  | some v => if v ≤ 0 then some (cameraDistance b) else some v
  | none => none

/-- `Renderer.get_camera_position(desired_view)`: the camera position
`(center + direction * horizontal_distance, camera_height)`, with a NaN
horizontal distance contaminating the X and Y coordinates (the Z coordinate
is always the finite `camera_height`). -/
noncomputable def get_camera_position (b : Bounds) (v : View) :
    Option ℝ × Option ℝ × ℝ :=
  match horizontalDistance b with
  | some hd =>
      (some (centerX b + (viewDirection v).1 * hd),
       some (centerY b + (viewDirection v).2 * hd),
       cameraHeight b)
  | none => (none, none, cameraHeight b)

/-- The camera-position step of `render_view`: `get_camera_position` reads
`self._bounds['min_x']` and so on, which raises `TypeError` when `_bounds`
is `None` (empty toolpath); `none` models that exception.  The GPU context
operations of `render_view` are not modelled. -/
noncomputable def render_view_camera (segs : List Segment) (v : View) :
    Option (Option ℝ × Option ℝ × ℝ) :=
  (get_bounds segs).map fun b => get_camera_position b v

/-! ### Claim C7: empty toolpath handling -/

/-- C7 counterexample: on an empty toolpath the camera-position step of
`render_view` fails (`none`): `render_view` raises instead of skipping with
a "no geometry" report, contrary to the claim. -/
theorem c7_render_view_raises_on_empty :
    render_view_camera [] View.north = none :=
  rfl

/-- C7 amended: when zero segments were produced the bounds are absent, and
`render_view` is not guarded against that: its camera-position step fails on
the absent bounds for every view (the exception is caught and logged per
view by the caller, which is not a reported "no geometry" skip). -/
theorem c7_empty_bounds_absent_and_unguarded :
    get_bounds ([] : List Segment) = none ∧
    ∀ v : View, render_view_camera [] v = none :=
  ⟨rfl, fun _ => rfl⟩

/-! ### Claim C8: NaN horizontal distance -/

/-- Degenerate bounds of a single point at the origin (produced, for
example, by the file `G1 X0 Y0 E1`, whose only segment is a point). -/
noncomputable def pointBounds : Bounds :=
  ⟨0, 0, 0, 0, 0, 0⟩

theorem pointBounds_diagonal : modelDiagonal pointBounds = 0 := by
  unfold modelDiagonal pointBounds
  norm_num

theorem pointBounds_hd : horizontalDistance pointBounds = none := by
  unfold horizontalDistance
  have hrad : cameraDistance pointBounds ^ 2 -
      (cameraHeight pointBounds - centerZ pointBounds) ^ 2 = -4 := by
    unfold cameraDistance cameraHeight centerZ minHeightOffset modelDepth
    rw [pointBounds_diagonal]
    unfold pointBounds
    norm_num [max_def]
  rw [hrad]
  unfold npSqrt
  rw [if_neg (by norm_num)]

/-- C8: evaluation of the code at the failing input.  For the degenerate
single-point bounds the radicand `camera_distance**2 - (camera_height -
center_z)**2` is `-4`, so `np.sqrt` yields NaN, the `<= 0` fallback guard is
false on NaN, and the camera X coordinate is NaN (`none`) — not the finite
fallback the claim asserts. -/
theorem c8_nan_camera_position :
    horizontalDistance pointBounds = none ∧
    (get_camera_position pointBounds View.north).1 = none := by
  refine ⟨pointBounds_hd, ?_⟩
  unfold get_camera_position
  rw [pointBounds_hd]

/-! ### Claim C9: equidistant cameras at a common height -/

/-- The property claimed by C9 for a bounds record: the eight camera
positions are defined, at a common horizontal distance from the bounds
center, and share the Z height `max_z + min_height_offset`. -/
def c9EquidistantProp (b : Bounds) : Prop :=
  (∃ d : ℝ, ∀ v : View, ∃ px py : ℝ,
      (get_camera_position b v).1 = some px ∧
      (get_camera_position b v).2.1 = some py ∧
      (px - centerX b) ^ 2 + (py - centerY b) ^ 2 = d ^ 2) ∧
  ∀ v : View, (get_camera_position b v).2.2 = b.max_z + minHeightOffset b

/-- C9 counterexample: for the degenerate single-point bounds the horizontal
distance is NaN, the camera X coordinates are undefined, and no common
horizontal distance exists — the claim fails for this Bounds. -/
theorem c9_not_equidistant_for_nan_bounds :
    ¬ c9EquidistantProp pointBounds := by
  intro h
  obtain ⟨⟨d, hall⟩, _⟩ := h
  obtain ⟨px, py, h1, _, _⟩ := hall View.north
  rw [show (get_camera_position pointBounds View.north).1 = none by
    unfold get_camera_position; rw [pointBounds_hd]] at h1
  exact Option.noConfusion h1

theorem sqrt2Inv_sq : sqrt2Inv ^ 2 = 1 / 2 := by
  unfold sqrt2Inv
  rw [div_pow, one_pow, Real.sq_sqrt (by norm_num)]

/-- C9 amended: for every bounds whose horizontal-distance computation
yields a number (non-NaN), the eight camera positions are all at that same
horizontal distance from the bounds center and share the Z height
`max_z + min_height_offset`; for bounds where the radicand is negative the
horizontal coordinates are NaN and no common distance exists. -/
theorem c9_cameras_equidistant (b : Bounds) (hd0 : ℝ)
    (h : horizontalDistance b = some hd0) : c9EquidistantProp b := by
  constructor
  · refine ⟨hd0, fun v => ?_⟩
    refine ⟨centerX b + (viewDirection v).1 * hd0,
      centerY b + (viewDirection v).2 * hd0, ?_, ?_, ?_⟩
    · unfold get_camera_position
      rw [h]
    · unfold get_camera_position
      rw [h]
    · have hs := sqrt2Inv_sq
      cases v <;> simp only [viewDirection] <;> ring_nf <;> nlinarith [hs]
  · intro v
    unfold get_camera_position
    rw [h]
    rfl

/-- Bounds from `(0,0,0)` to `(3,4,0)`: diagonal `5`, camera distance `7.5`,
camera height `2.5`, radicand `50`. -/
noncomputable def c9Bounds : Bounds :=
  ⟨0, 3, 0, 4, 0, 0⟩

theorem c9Bounds_hd : horizontalDistance c9Bounds = some (Real.sqrt 50) := by
  have hdiag : modelDiagonal c9Bounds = 5 := by
    unfold modelDiagonal c9Bounds
    rw [show ((3 : ℝ) - 0) ^ 2 + ((4 : ℝ) - 0) ^ 2 + ((0 : ℝ) - 0) ^ 2 = 5 ^ 2 by norm_num]
    exact Real.sqrt_sq (by norm_num)
  have hrad : cameraDistance c9Bounds ^ 2 -
      (cameraHeight c9Bounds - centerZ c9Bounds) ^ 2 = 50 := by
    unfold cameraDistance cameraHeight centerZ minHeightOffset modelDepth
    rw [hdiag]
    unfold c9Bounds
    norm_num [max_def]
  unfold horizontalDistance
  rw [hrad]
  unfold npSqrt
  rw [if_pos (by norm_num : (0 : ℝ) ≤ 50)]
  show (if Real.sqrt 50 ≤ 0 then some (cameraDistance c9Bounds)
    else some (Real.sqrt 50)) = some (Real.sqrt 50)
  rw [if_neg (not_le.mpr (Real.sqrt_pos.mpr (by norm_num)))]

/-- C9 witness: the amended statement applied at the concrete bounds
`(0,0,0)-(3,4,0)`, whose horizontal distance evaluates to `sqrt 50`. -/
theorem c9_witness : c9EquidistantProp c9Bounds :=
  c9_cameras_equidistant c9Bounds (Real.sqrt 50) c9Bounds_hd

end GcodeOracle
